import Mathlib

/-
  Verification of the build-hash diff tool (bhyze.py).

  The Python source is shallowly embedded below:
  - the nested `defaultdict` hash mapping becomes an association list with
    the same auto-inserting read/write semantics,
  - remote command results become explicit inputs (`Option String`, where
    `none` stands for a nonzero exit status of the remote command),
  - fallible code (assertions, TypeError, list.index failures) becomes
    `Except String`.
-/

namespace Bhyze

/-- Whitespace characters of Python's `str` semantics (ASCII range). -/
def isPySpace (c : Char) : Bool :=
  c = ' ' || c = '\t' || c = '\n' || c = '\x0d' || c = '\x0b' || c = '\x0c'

/-- Bool test that the char list `p` is an initial segment of `s`. -/
def listPfx : List Char → List Char → Bool
  | [], _ => true
  | _ :: _, [] => false
  | a :: as, b :: bs => a == b && listPfx as bs

/-- Python `s.startswith(p)`. -/
def strHasPfx (s p : String) : Bool := listPfx p.data s.data

/-- Match a literal at the start of `s`, returning the remainder. -/
def dropLit (s lit : String) : Option String :=
  if strHasPfx s lit then some ⟨s.data.drop lit.data.length⟩ else none

/-- Python `s.endswith(p)`. -/
def strHasSfx (s p : String) : Bool := listPfx p.data.reverse s.data.reverse

/-- Python `s.removesuffix(sfx)`. -/
def removeSfx (s sfx : String) : String :=
  if strHasSfx s sfx then ⟨s.data.take (s.data.length - sfx.data.length)⟩ else s

/-- Drop the last `n` characters of `s`. -/
def strDropRight (s : String) (n : Nat) : String :=
  ⟨s.data.take (s.data.length - n)⟩

/-- Helper for `splitlines`: walk the text accumulating the current line. -/
def splitlinesAux : List Char → List Char → List String
  | [], acc => if acc.isEmpty then [] else [⟨acc⟩]
  | '\n' :: rest, acc => (⟨acc⟩ : String) :: splitlinesAux rest []
  | c :: rest, acc => splitlinesAux rest (acc ++ [c])

/-- Python `s.splitlines()` for newline-separated text (the log vocabulary of
this program is `\n`-separated; the other Unicode line breaks Python would
also split on never occur in it): no trailing empty line, and `""` gives `[]`. -/
def splitlines (s : String) : List String := splitlinesAux s.data []

/-- Split a char list at every char satisfying `p`, keeping empty runs. -/
def splitOnPred (p : Char → Bool) (l : List Char) : List (List Char) :=
  l.foldr
    (fun x acc =>
      if p x then [] :: acc
      else match acc with
           | h :: t => (x :: h) :: t
           | [] => [[x]])
    [[]]

/-- Python `s.split()` (split on whitespace runs, dropping empty fields). -/
def pySplit (s : String) : List String :=
  ((splitOnPred isPySpace s.data).filter (· ≠ [])).map (fun cs => ⟨cs⟩)

/-- Split a char list on a single separator char (Python `s.split(c)`). -/
def splitOnCh (c : Char) (l : List Char) : List (List Char) :=
  l.foldr
    (fun x acc =>
      if x = c then [] :: acc
      else match acc with
           | h :: t => (x :: h) :: t
           | [] => [[x]])
    [[]]

/-- Python `'\n'.join(lines)`. -/
def strJoinNL (ls : List String) : String := String.intercalate "\n" ls

/-! ### Association-list model of Python dicts

Python dicts preserve insertion order; an update overwrites in place and a
new key is appended.  `defaultdict` reads insert the default on a miss. -/

/-- First value stored under key `k` (Python `d[k]` read / `k in d` test). -/
def alFind {κ α : Type} [DecidableEq κ] : List (κ × α) → κ → Option α
  | [], _ => none
  | p :: t, k => if p.1 = k then some p.2 else alFind t k

/-- Overwrite the entries of key `k` (there is at most one) in place. -/
def alReplace {κ α : Type} [DecidableEq κ] :
    List (κ × α) → κ → α → List (κ × α)
  | [], _, _ => []
  | p :: t, k, v => (if p.1 = k then (k, v) else p) :: alReplace t k v

/-- Python `d[k] = v`: overwrite in place, or append a new entry. -/
def alInsert {κ α : Type} [DecidableEq κ] (d : List (κ × α)) (k : κ) (v : α) :
    List (κ × α) :=
  if (alFind d k).isSome then alReplace d k v else d ++ [(k, v)]

theorem alFind_replace {κ α : Type} [DecidableEq κ] (d : List (κ × α))
    (k : κ) (v : α) (q : κ) :
    alFind (alReplace d k v) q =
      if q = k then (alFind d k).map (fun _ => v) else alFind d q := by
  induction d with
  | nil => by_cases h : q = k <;> simp [alFind, alReplace, h]
  | cons hd tl ih =>
      obtain ⟨a, b⟩ := hd
      by_cases hak : a = k
      · subst hak
        by_cases hq : q = a
        · subst hq; simp [alFind, alReplace, ih]
        · have haq : ¬ a = q := fun h => hq h.symm
          simp [alFind, alReplace, hq, haq, ih]
      · by_cases hq : q = a
        · subst hq
          simp [alFind, alReplace, hak, Ne.symm hak]
        · have haq : ¬ a = q := fun h => hq h.symm
          simp [alFind, alReplace, hak, haq, ih]

theorem alFind_append_single {κ α : Type} [DecidableEq κ] (d : List (κ × α))
    (k : κ) (v : α) (q : κ) :
    alFind (d ++ [(k, v)]) q =
      match alFind d q with
      | some x => some x
      | none => if q = k then some v else none := by
  induction d with
  | nil =>
      by_cases h : q = k
      · subst h; simp [alFind]
      · have h1 : ¬ k = q := fun hh => h hh.symm
        simp [alFind, h1, h]
  | cons hd tl ih =>
      obtain ⟨a, b⟩ := hd
      by_cases hq : a = q
      · subst hq; simp [alFind]
      · simp [alFind, hq, ih]

theorem alFind_insert {κ α : Type} [DecidableEq κ] (d : List (κ × α))
    (k : κ) (v : α) (q : κ) :
    alFind (alInsert d k v) q = if q = k then some v else alFind d q := by
  unfold alInsert
  by_cases hs : (alFind d k).isSome
  · simp only [hs, if_pos]
    rw [alFind_replace]
    by_cases hq : q = k
    · subst hq
      obtain ⟨x, hx⟩ := Option.isSome_iff_exists.mp hs
      simp [hx]
    · simp [hq]
  · simp only [hs, Bool.false_eq_true, if_neg, not_false_iff]
    rw [alFind_append_single]
    by_cases hq : q = k
    · subst hq
      have hnone : alFind d q = none := by
        cases h : alFind d q with
        | none => rfl
        | some x => rw [h] at hs; simp at hs
      simp [hnone]
    · cases h : alFind d q with
      | none => simp [hq]
      | some x => simp [hq]

/-! ### The nested hash mapping (`buildhash`)

`buildhash` is a `defaultdict(innerDict)` whose values are `defaultdict(str)`:
package name → hash-type → hash token. -/

/-- Per-package record: hash-type → token (`defaultdict(str)` in the source). -/
abbrev Inner := List (String × String)

/-- Package → record (`defaultdict(innerDict)` in the source). -/
abbrev Outer := List (String × Inner)

/-- Python `pkg in d` on the outer mapping — a plain membership test that
performs no insertion. -/
def outerMem (d : Outer) (pkg : String) : Bool := (alFind d pkg).isSome

/-- Python `self.buildhash[pkg][htype] = v`.  The outer defaultdict read
inserts an empty record on a miss; the inner write overwrites or appends. -/
def bhSet (d : Outer) (pkg htype v : String) : Outer :=
  match alFind d pkg with
  | some inner => alReplace d pkg (alInsert inner htype v)
  | none => d ++ [(pkg, alInsert [] htype v)]

/-- Python `x = d[pkg][htype]` on the nested defaultdicts: both levels insert
their default (`innerDict()` resp. `''`) on a miss, so the read returns the
value together with the possibly-extended mapping. -/
def bhRead (d : Outer) (pkg htype : String) : String × Outer :=
  match alFind d pkg with
  | some inner =>
      match alFind inner htype with
      | some v => (v, d)
      | none => ("", alReplace d pkg (alInsert inner htype ""))
  | none => ("", d ++ [(pkg, alInsert [] htype "")])

/-- Pure two-level lookup (no defaultdict insertion); used only in statements. -/
def outerSlot (d : Outer) (pkg htype : String) : Option String :=
  (alFind d pkg).bind (fun inner => alFind inner htype)

theorem alFind_bhSet (d : Outer) (pkg htype v q : String) :
    alFind (bhSet d pkg htype v) q =
      if q = pkg then some (alInsert ((alFind d pkg).getD []) htype v)
      else alFind d q := by
  unfold bhSet
  cases h : alFind d pkg with
  | some inner =>
      rw [alFind_replace]
      by_cases hq : q = pkg
      · subst hq; simp [h]
      · simp [hq]
  | none =>
      rw [alFind_append_single]
      by_cases hq : q = pkg
      · subst hq; simp [h]
      · cases h2 : alFind d q with
        | none => simp [hq]
        | some x => simp [hq]

theorem outerSlot_bhSet_self (d : Outer) (pkg htype v : String) :
    outerSlot (bhSet d pkg htype v) pkg htype = some v := by
  unfold outerSlot
  rw [alFind_bhSet]
  simp [alFind_insert]

theorem outerSlot_bhSet_other_key (d : Outer) (pkg htype v k : String)
    (h : k ≠ htype) :
    outerSlot (bhSet d pkg htype v) pkg k = outerSlot d pkg k := by
  unfold outerSlot
  rw [alFind_bhSet]
  simp only [eq_self_iff_true, if_true]
  rw [Option.some_bind, alFind_insert, if_neg h]
  cases h2 : alFind d pkg with
  | none => simp [alFind]
  | some inner => simp

theorem outerMem_bhSet (d : Outer) (pkg htype v q : String) :
    outerMem (bhSet d pkg htype v) q = (outerMem d q || decide (q = pkg)) := by
  unfold outerMem
  rw [alFind_bhSet]
  by_cases hq : q = pkg
  · simp [hq]
  · simp [hq]

theorem bhRead_hit (d : Outer) (pkg htype v : String)
    (h : outerSlot d pkg htype = some v) :
    bhRead d pkg htype = (v, d) := by
  unfold outerSlot at h
  cases h1 : alFind d pkg with
  | none => rw [h1] at h; simp at h
  | some inner =>
      rw [h1] at h
      rw [Option.some_bind] at h
      simp [bhRead, h1, h]

theorem outerMem_bhRead (d : Outer) (pkg htype q : String)
    (h : outerMem d pkg = true) :
    outerMem (bhRead d pkg htype).2 q = outerMem d q := by
  unfold outerMem at *
  cases h1 : alFind d pkg with
  | none => rw [h1] at h; simp at h
  | some inner =>
      cases h2 : alFind inner htype with
      | some v => simp [bhRead, h1, h2]
      | none =>
          simp only [bhRead, h1, h2]
          rw [alFind_replace]
          by_cases hq : q = pkg
          · subst hq; simp [h1]
          · simp [hq]

/-! ### Build descriptor and snapshot (`AbuildInfo`, `HashInfo`) -/

/-- Build descriptor returned by `getAbuildInfo` (`ap abuild` fields). -/
structure AbuildInfo where
  start : String
  submit : String
  publish : String
  buildId : String
  project : String
  platform : String
  bs : String
deriving DecidableEq, Repr

/-- Per-build snapshot (`HashInfo` dataclass). -/
structure HashInfo where
  bi : AbuildInfo
  hashLogs : List String := []
  pkgDepOrder : List String := []
  buildhash : Outer := []
  populated : Bool := false
deriving DecidableEq, Repr

/-- The dataclass defaults: `HashInfo(bi)` as built by `LoadHashInfo` when no
cache entry exists. -/
def HashInfo.init (bi : AbuildInfo) : HashInfo :=
  { bi := bi, hashLogs := [], pkgDepOrder := [], buildhash := [],
    populated := false }

/-! ### Per-package hash extraction -/

/-- Model of `buildhashPattern = re.compile(r'buildhash now (\S*)')` used with
`re.match` (anchored at the start, partial match allowed): the line must begin
with the literal `buildhash now ` and group 1 is the maximal run of
non-whitespace characters that follows — possibly empty, since the source
uses `\S*`. -/
def matchBuildhash (s : String) : Option String :=
  match dropLit s "buildhash now " with
  | none => none
  | some rest => some ⟨rest.data.takeWhile (fun c => !(isPySpace c))⟩

/-- Remote grep results for the three marker lookups of one package's hash
log.  `some out` is the stdout of a zero-exit `tac … | grep -m 1 …`; `none`
records a nonzero exit status (`SshClient.RunCmdErr`). -/
structure PkgLogGreps where
  contentGrep : Option String := none
  depsGrep : Option String := none
  finalGrep : Option String := none
deriving DecidableEq, Repr

/-- Inner helper `populateHashType` of `populateBuildHashForPkg`: a failed
remote command is re-raised unless the hash type is `deps`, which gets the
sentinel `NA`; a successful grep line must match `buildhashPattern`
(`assert mObj`) and group 1 is stored. -/
def populateHashType (pkg htype : String) (grepResult : Option String)
    (d : Outer) : Except String Outer :=
  match grepResult with
  | none =>
      if htype ≠ "deps" then .error "SshClient.RunCmdErr"
      else .ok (bhSet d pkg htype "NA")
  | some out =>
      match matchBuildhash out with
      | none => .error "AssertionError: assert mObj"
      | some tok => .ok (bhSet d pkg htype tok)

/-- `HashInfo.populateBuildHashForPkg`: silently skip packages without a hash
log, otherwise run the three marker lookups in order content, deps, final. -/
def populateBuildHashForPkg (hashLogs : List String) (pkg : String)
    (greps : PkgLogGreps) (d : Outer) : Except String Outer :=
  if hashLogs.contains pkg then do
    let d ← populateHashType pkg "content" greps.contentGrep d
    let d ← populateHashType pkg "deps" greps.depsGrep d
    let d ← populateHashType pkg "final" greps.finalGrep d
    .ok d
  else .ok d

/-! ### Whole-build collection (`populateAll`) -/

/-- Remote state one build's collection run observes: `ls` of the hash-log
directory, the `grep` for the build-order line of `Abuild.log`, and the three
per-package grep results.  `none` again records a nonzero exit status. -/
structure RemoteEnv where
  lsOutput : Option String := none
  orderGrep : Option String := none
  pkgGreps : String → PkgLogGreps := fun _ => {}

/-- `HashInfo.populateHashLogsSet`: the set of file-name stems before the
first `.` of the hash-log directory listing. -/
def populateHashLogsSet (hi : HashInfo) (env : RemoteEnv) :
    Except String HashInfo :=
  match env.lsOutput with
  | none => .error "SshClient.RunCmdErr"
  | some out =>
      .ok { hi with
            hashLogs := (splitlines out).map
              (fun x => ((splitOnCh '.' x.data).headD []).asString) }

/-- Scan for the first position where `marker` occurs and return what
follows it. -/
def afterLitAux (marker : List Char) : List Char → Option (List Char)
  | [] => none
  | c :: rest =>
      if listPfx marker (c :: rest) then some ((c :: rest).drop marker.length)
      else afterLitAux marker rest

/-- Remainder of `s` after the first occurrence of the literal `marker`, or
`none` when the marker does not occur (Python `re.search` failing). -/
def afterFirstLit (s marker : String) : Option String :=
  (afterLitAux marker.data s.data).map (fun cs => ⟨cs⟩)

/-- `HashInfo.populatePkgBuildOrder`: grep `Abuild.log` for the single
`'a4 make' packages:` line, apply `r"'a4 make' packages:\s*(.*)"` (skip the
whitespace after the marker, capture to the end of that line), split the
captured group on whitespace and strip a trailing `(!)` from each token. -/
def populatePkgBuildOrder (hi : HashInfo) (env : RemoteEnv) :
    Except String HashInfo :=
  match env.orderGrep with
  | none => .error "SshClient.RunCmdErr"
  | some out =>
      match afterFirstLit out "'a4 make' packages:" with
      | none => .error "AttributeError: NoneType has no attribute group"
      | some rest =>
          let captured : String :=
            ⟨(rest.data.dropWhile isPySpace).takeWhile (fun c => c ≠ '\n')⟩
          .ok { hi with
                pkgDepOrder := (pySplit captured).map
                  (fun p => removeSfx p "(!)") }

/-- The per-package loop body of `populateBuildhashes`, folded over the
dependency-order prefix. -/
def populateList (hashLogs : List String) (env : RemoteEnv) :
    List String → Outer → Except String Outer
  | [], d => .ok d
  | pkg :: rest, d => do
      let d ← populateBuildHashForPkg hashLogs pkg (env.pkgGreps pkg) d
      populateList hashLogs env rest d

/-- `HashInfo.populateBuildhashes`: a `None` limit defaults to the full
dependency-order length; iterate the prefix. -/
def populateBuildhashes (hi : HashInfo) (env : RemoteEnv)
    (pkgLimit : Option Nat) : Except String HashInfo := do
  let limit := pkgLimit.getD hi.pkgDepOrder.length
  let bh ← populateList hi.hashLogs env (hi.pkgDepOrder.take limit) hi.buildhash
  .ok { hi with buildhash := bh }

/-! ### Snapshot cache -/

/-- The pickle directory: filename (hence key) is `id-{buildId}_limit-{limit}`,
so a cache entry is addressed by build id and limit only. -/
abbrev Cache := List ((String × Option Nat) × HashInfo)

/-- Key of `pickleFilepath(bi, limit)`. -/
def pickleKey (bi : AbuildInfo) (limit : Option Nat) : String × Option Nat :=
  (bi.buildId, limit)

/-- Lookup of a cache file (`os.path.exists` + `pickle.load`). -/
def cacheLookup (c : Cache) (key : String × Option Nat) : Option HashInfo :=
  alFind c key

/-- `HashInfo.pickle`: (over)write the snapshot file under the build's own
id and the given limit. -/
def cacheStore (c : Cache) (hi : HashInfo) (limit : Option Nat) : Cache :=
  alInsert c (pickleKey hi.bi limit) hi

/-- `LoadHashInfo`: empty-unpopulated snapshot when no cache file exists,
otherwise the stored entry after `assert hi.bi == bi`. -/
def LoadHashInfo (c : Cache) (bi : AbuildInfo) (pkgLimit : Option Nat) :
    Except String HashInfo :=
  match cacheLookup c (pickleKey bi pkgLimit) with
  | some hi =>
      if hi.bi = bi then .ok hi
      else .error "AssertionError: assert hi.bi == bi"
  | none => .ok (HashInfo.init bi)

/-- `HashInfo.populateAll`: discover hash logs, recover the dependency order,
populate the per-package records, mark populated, persist via pickle. -/
def populateAll (hi : HashInfo) (env : RemoteEnv) (pkgLimit : Option Nat)
    (cache : Cache) : Except String (HashInfo × Cache) := do
  let hi ← populateHashLogsSet hi env
  let hi ← populatePkgBuildOrder hi env
  let hi ← populateBuildhashes hi env pkgLimit
  let hi := { hi with populated := true }
  .ok (hi, cacheStore cache hi pkgLimit)

/-! ### Diff summarizer (`diffSummaryCmd`, lines 265-298) -/

/-- Mutable state of the summary loop: the two snapshots' hash mappings (the
loop can in principle mutate them through defaultdict reads) and the
counters. -/
structure LoopSt where
  rbh : Outer
  ibh : Outer
  accounted : Nat
  matchCount : Nat
  displayList : List (String × String)
deriving DecidableEq, Repr

/-- One iteration of the summary loop.  The returned flag records whether the
iteration raised: the `else` branch appends the settings-changed row and then
executes `displayList[ pkg ] = 'final'`, which indexes a Python list with a
`str` key and raises `TypeError`. -/
def summaryStep (st : LoopSt) (pkg : String) : LoopSt × Bool :=
  if outerMem st.ibh pkg then
    if outerMem st.rbh pkg then
      let st1 := { st with accounted := st.accounted + 1 }
      let ri := bhRead st1.ibh pkg "final"
      let rr := bhRead st1.rbh pkg "final"
      let st2 := { st1 with ibh := ri.2, rbh := rr.2 }
      if ri.1 = rr.1 then
        ({ st2 with matchCount := st2.matchCount + 1 }, false)
      else
        let ci := bhRead st2.ibh pkg "content"
        let cr := bhRead st2.rbh pkg "content"
        let st3 := { st2 with ibh := ci.2, rbh := cr.2 }
        if ci.1 ≠ cr.1 then
          ({ st3 with displayList :=
               st3.displayList ++ [(pkg, "package contents changed")] }, false)
        else
          let di := bhRead st3.ibh pkg "deps"
          let dr := bhRead st3.rbh pkg "deps"
          let st4 := { st3 with ibh := di.2, rbh := dr.2 }
          if di.1 ≠ dr.1 then
            ({ st4 with displayList :=
                 st4.displayList ++ [(pkg, "depSig changed")] }, false)
          else
            ({ st4 with displayList :=
                 st4.displayList ++ [(pkg, "build setting/env changed")] },
             true)
    else (st, false)
  else (st, false)

/-- The summary loop; stops early when an iteration raises, carrying the
state reached so far (the exception propagates past the loop in Python but
the mutated objects survive). -/
def summaryLoop : List String → LoopSt → LoopSt × Bool
  | [], st => (st, false)
  | pkg :: rest, st =>
      let r := summaryStep st pkg
      if r.2 then (r.1, true) else summaryLoop rest r.1

/-- The counts `diffSummaryCmd` prints on normal completion, plus the ordered
mismatch list it tabulates. -/
structure SummaryOut where
  considered : Nat
  accounted : Nat
  matched : Nat
  mismatched : Nat
  displayList : List (String × String)
deriving DecidableEq, Repr

/-- `iterLimit = pkgLimit or len( ihi.pkgDepOrder )` — Python `or`, so both
`None` and `0` fall back to the full dependency-order length. -/
def effLimit (ihi : HashInfo) (pkgLimit : Option Nat) : Nat :=
  match pkgLimit with
  | none => ihi.pkgDepOrder.length
  | some n => if n = 0 then ihi.pkgDepOrder.length else n

/-- The comparison half of `diffSummaryCmd` (lines 265-298): walk the inspect
build's dependency order up to `iterLimit`, classify, and report the printed
counts.  `Total packages considered` is printed as the raw `iterLimit`;
`Num of matching hashes` as `accounted - len( displayList )`. -/
def diffSummary (rhi ihi : HashInfo) (pkgLimit : Option Nat) :
    (HashInfo × HashInfo) × Except String SummaryOut :=
  let iterLimit := effLimit ihi pkgLimit
  let st0 : LoopSt :=
    { rbh := rhi.buildhash, ibh := ihi.buildhash,
      accounted := 0, matchCount := 0, displayList := [] }
  let r := summaryLoop (ihi.pkgDepOrder.take iterLimit) st0
  let rhi' := { rhi with buildhash := r.1.rbh }
  let ihi' := { ihi with buildhash := r.1.ibh }
  if r.2 then
    ((rhi', ihi'),
     .error "TypeError: list indices must be integers or slices, not str")
  else
    ((rhi', ihi'),
     .ok { considered := iterLimit,
           accounted := r.1.accounted,
           matched := r.1.accounted - r.1.displayList.length,
           mismatched := r.1.displayList.length,
           displayList := r.1.displayList })

/-- Packages of the iterated prefix that lack a hash record in at least one
snapshot (skipped by the two `continue` guards). -/
def countSkipped (rhi ihi : HashInfo) (iterLimit : Nat) : Nat :=
  (ihi.pkgDepOrder.take iterLimit).countP
    (fun pkg => !(outerMem ihi.buildhash pkg && outerMem rhi.buildhash pkg))

/-! ### Package diff analyzer -/

/-- Scan over the common prefix of the two line lists and return the first
differing pair. -/
def findDiffAux : List String → List String → Option String × Option String
  | a :: as, b :: bs => if a ≠ b then (some a, some b) else findDiffAux as bs
  | _, _ => (none, none)

/-- `findDiffLine`: split both texts into lines, return the first differing
line pair within the shared prefix length, or `( None, None )`. -/
def findDiffLine (l1 l2 : String) : Option String × Option String :=
  findDiffAux (splitlines l1) (splitlines l2)

/-- Hex digit value (0 for non-hex input, which callers exclude). -/
def hexVal (c : Char) : Nat :=
  if c.isDigit then c.toNat - 48
  else if 'a' ≤ c ∧ c ≤ 'f' then c.toNat - 87
  else if 'A' ≤ c ∧ c ≤ 'F' then c.toNat - 55
  else 0

/-- Octal digit test. -/
def isOctDigit (c : Char) : Bool := '0' ≤ c && c ≤ '7'

/-- Octal digit value. -/
def octVal (c : Char) : Nat := c.toNat - 48

/-- Hex digit test (Python `string.hexdigits` membership). -/
def isHexCh (c : Char) : Bool :=
  c.isDigit || ('a' ≤ c && c ≤ 'f') || ('A' ≤ c && c ≤ 'F')

/-- Fuel-indexed worker for `decodeUE`.  The fuel starts at the input
length and every step consumes at least one character, so the out-of-fuel
arm is unreachable; it exists only to make the recursion structural. -/
def decodeUEAux : Nat → List Char → Except String (List Char)
  | _, [] => .ok []
  | 0, _ :: _ => .error "unreachable: fuel bounds the input length"
  | _ + 1, ['\\'] => .error "ValueError: Trailing backslash in string"
  | fuel + 1, '\\' :: '\n' :: t => decodeUEAux fuel t
  | fuel + 1, '\\' :: '\\' :: t => (List.cons '\\') <$> decodeUEAux fuel t
  | fuel + 1, '\\' :: '\'' :: t => (List.cons '\'') <$> decodeUEAux fuel t
  | fuel + 1, '\\' :: '"' :: t => (List.cons '"') <$> decodeUEAux fuel t
  | fuel + 1, '\\' :: 'a' :: t => (List.cons '\x07') <$> decodeUEAux fuel t
  | fuel + 1, '\\' :: 'b' :: t => (List.cons '\x08') <$> decodeUEAux fuel t
  | fuel + 1, '\\' :: 'f' :: t => (List.cons '\x0c') <$> decodeUEAux fuel t
  | fuel + 1, '\\' :: 'n' :: t => (List.cons '\n') <$> decodeUEAux fuel t
  | fuel + 1, '\\' :: 'r' :: t => (List.cons '\x0d') <$> decodeUEAux fuel t
  | fuel + 1, '\\' :: 't' :: t => (List.cons '\t') <$> decodeUEAux fuel t
  | fuel + 1, '\\' :: 'v' :: t => (List.cons '\x0b') <$> decodeUEAux fuel t
  | fuel + 1, '\\' :: 'x' :: c1 :: c2 :: t =>
      if isHexCh c1 && isHexCh c2 then
        (List.cons (Char.ofNat (16 * hexVal c1 + hexVal c2))) <$>
          decodeUEAux fuel t
      else .error "UnicodeDecodeError: invalid x escape"
  | _ + 1, '\\' :: 'x' :: _ => .error "UnicodeDecodeError: invalid x escape"
  | fuel + 1, '\\' :: 'u' :: c1 :: c2 :: c3 :: c4 :: t =>
      if isHexCh c1 && isHexCh c2 && isHexCh c3 && isHexCh c4 then
        let n := 4096 * hexVal c1 + 256 * hexVal c2 + 16 * hexVal c3 + hexVal c4
        if Nat.isValidChar n then
          (List.cons (Char.ofNat n)) <$> decodeUEAux fuel t
        else .error "surrogate escape not modelled"
      else .error "UnicodeDecodeError: invalid u escape"
  | _ + 1, '\\' :: 'u' :: _ => .error "UnicodeDecodeError: invalid u escape"
  | fuel + 1, '\\' :: 'U' :: c1 :: c2 :: c3 :: c4 :: c5 :: c6 :: c7 :: c8 :: t =>
      if isHexCh c1 && isHexCh c2 && isHexCh c3 && isHexCh c4 &&
         isHexCh c5 && isHexCh c6 && isHexCh c7 && isHexCh c8 then
        let n := 16 ^ 7 * hexVal c1 + 16 ^ 6 * hexVal c2 + 16 ^ 5 * hexVal c3 +
          16 ^ 4 * hexVal c4 + 4096 * hexVal c5 + 256 * hexVal c6 +
          16 * hexVal c7 + hexVal c8
        if Nat.isValidChar n then
          (List.cons (Char.ofNat n)) <$> decodeUEAux fuel t
        else .error "UnicodeDecodeError: illegal Unicode character"
      else .error "UnicodeDecodeError: invalid U escape"
  | _ + 1, '\\' :: 'U' :: _ => .error "UnicodeDecodeError: invalid U escape"
  | fuel + 1, '\\' :: c :: c2 :: c3 :: t =>
      if isOctDigit c then
        if isOctDigit c2 then
          if isOctDigit c3 then
            (List.cons (Char.ofNat (64 * octVal c + 8 * octVal c2 +
              octVal c3))) <$> decodeUEAux fuel t
          else
            (List.cons (Char.ofNat (8 * octVal c + octVal c2))) <$>
              decodeUEAux fuel (c3 :: t)
        else
          (List.cons (Char.ofNat (octVal c))) <$> decodeUEAux fuel (c2 :: c3 :: t)
      else (fun l => '\\' :: c :: l) <$> decodeUEAux fuel (c2 :: c3 :: t)
  | fuel + 1, ['\\', c, c2] =>
      if isOctDigit c then
        if isOctDigit c2 then .ok [Char.ofNat (8 * octVal c + octVal c2)]
        else (List.cons (Char.ofNat (octVal c))) <$> decodeUEAux fuel [c2]
      else (fun l => '\\' :: c :: l) <$> decodeUEAux fuel [c2]
  | _ + 1, ['\\', c] =>
      if isOctDigit c then .ok [Char.ofNat (octVal c)]
      else .ok ['\\', c]
  | fuel + 1, c :: t => (List.cons c) <$> decodeUEAux fuel t

/-- Python `bytes( s, 'utf-8' ).decode( 'unicode_escape' )`, modelled at the
character level for the ASCII log vocabulary: the standard single-character
escapes, line continuation, up to three octal digits, `\xhh`, `\uhhhh` and
`\Uhhhhhhhh`; an unknown escape keeps the backslash and the character.  A
trailing backslash or a malformed hex escape raises.  (Named `\N{...}`
escapes and lone-surrogate `\u` values never occur in these logs and are
rejected.) -/
def decodeUE (cs : List Char) : Except String (List Char) :=
  decodeUEAux cs.length cs

/-- `getInstallSig`: apply
`r"depSig now \S* due to full: len=\d*=b'(.*)'$"` with `re.match` and decode
the captured payload.  The regex is deterministic: `\S*` is the maximal
non-whitespace run, `\d*` the maximal digit run, and `(.*)'$` captures
everything up to a quote that must close the line.  A non-matching line is
`assert False, 'bad log line'`. -/
def getInstallSig (logLine : String) : Except String String :=
  let parsed : Option String := do
    let s1 ← dropLit logLine "depSig now "
    let s2 : String := ⟨s1.data.dropWhile (fun c => !(isPySpace c))⟩
    let s3 ← dropLit s2 " due to full: len="
    let s4 : String := ⟨s3.data.dropWhile (fun c => c.isDigit)⟩
    let s5 ← dropLit s4 "=b'"
    if strHasSfx s5 "'" then some (strDropRight s5 1)
    else if strHasSfx s5 "'\n" then some (strDropRight s5 2)
    else none
  match parsed with
  | none => .error "AssertionError: bad log line"
  | some payload =>
      match decodeUE payload.data with
      | .error e => .error e
      | .ok cs => .ok ⟨cs⟩

/-- `getRpmFromInstallSig`: first line of the decoded signature
(`sig.splitlines()[ 0 ]`, an `IndexError` on an empty signature). -/
def getRpmFromInstallSig (sig : String) : Except String String :=
  match splitlines sig with
  | [] => .error "IndexError: list index out of range"
  | l :: _ => .ok l

/-- Terminal classification of `PackageDiff.analyze` and its callees, with
the values the corresponding branch prints. -/
inductive Diagnosis where
  | noDivergence
  | settingsOrContentDirect (ref ins : String)
  | packageAddedOrRemoved (refRpm insRpm : String)
  | contentChangedInPackage (rpm : String) (ref ins : Option String)
  | depsContentSigChanged (ref ins : Option String)
deriving DecidableEq, Repr

/-- `PackageDiff.getDepsContentSigPattern`: strip the epoch part (before the
first `:`, minus a trailing `-None`), take the version (first `-`-delimited
segment after the `:`), and synthesize the marker line.  An rpm identity
without a `:` raises `IndexError`. -/
def getDepsContentSigPattern (rpm pkg : String) : Except String String :=
  match splitOnCh ':' rpm.data with
  | seg0 :: seg1 :: _ =>
      let rpmName := removeSfx ⟨seg0⟩ "-None"
      let rpmVersion : String := ⟨(splitOnCh '-' seg1).headD []⟩
      .ok (" ".intercalate
        ["CALCULATING DEPSCONTENTSIG FOR",
         rpmName ++ "-" ++ rpmVersion,
         "in the context of PACKAGE",
         pkg])
  | _ => .error "IndexError: list index out of range"

/-- `PackageDiff.getDepsSubLog`: `assert log is not None`; find the marker
line's index (`list.index`, `ValueError` when absent), set
`startIndex = index + 1`, then scan `i = startIndex + 1, startIndex + 2, …`
while the line at `i` starts with `depsContentSig now`, keeping the last such
`i` as `endIndex` (initially `startIndex`), and join the slice
`logLines[ startIndex : endIndex ]`. -/
def getDepsSubLog (log : Option String) (pattern : String) :
    Except String String :=
  match log with
  | none => .error "AssertionError: assert log is not None"
  | some log =>
      let logLines := splitlines log
      match logLines.findIdx? (fun l => l = pattern) with
      | none => .error "ValueError: pattern is not in list"
      | some idx =>
          let startIndex := idx + 1
          let run := ((logLines.drop (startIndex + 1)).takeWhile
            (fun l => strHasPfx l "depsContentSig now")).length
          let endIndex := startIndex + run
          .ok (strJoinNL ((logLines.drop startIndex).take
            (endIndex - startIndex)))

/-- `PackageDiff.analyzeDepsContentSig`: build both markers, extract both
sub-log blocks, and report the first diverging pair of the blocks. -/
def analyzeDepsContentSig (pkg refRpm insRpm : String)
    (rdeplog ideplog : Option String) : Except String Diagnosis := do
  let refPattern ← getDepsContentSigPattern refRpm pkg
  let refDepsLog ← getDepsSubLog rdeplog refPattern
  let insPattern ← getDepsContentSigPattern insRpm pkg
  let insDepsLog ← getDepsSubLog ideplog insPattern
  let r := findDiffLine refDepsLog insDepsLog
  .ok (.depsContentSigChanged r.1 r.2)

/-- `PackageDiff.analyzeInstallSigDiff`: differing identity tokens mean an
rpm was added or deleted; otherwise drill into the first diverging line of
the two signatures.  A `None` diverging line hits `None.startswith`
(`AttributeError`) exactly where Python would. -/
def analyzeInstallSigDiff (pkg : String) (rsig isig : String)
    (rdeplog ideplog : Option String) : Except String Diagnosis := do
  let refRpm ← getRpmFromInstallSig rsig
  let insRpm ← getRpmFromInstallSig isig
  if refRpm ≠ insRpm then
    .ok (.packageAddedOrRemoved refRpm insRpm)
  else
    match findDiffLine rsig isig with
    | (none, _) => .error "AttributeError: NoneType has no attribute startswith"
    | (some lhs, rhsOpt) =>
        if strHasPfx lhs "depsContentSig:" then
          match rhsOpt with
          | none =>
              .error "AttributeError: NoneType has no attribute startswith"
          | some rhs =>
              if strHasPfx rhs "depsContentSig:" then
                analyzeDepsContentSig pkg refRpm insRpm rdeplog ideplog
              else .ok (.contentChangedInPackage refRpm (some lhs) (some rhs))
        else .ok (.contentChangedInPackage refRpm (some lhs) rhsOpt)

/-- `PackageDiff.analyze`: no diverging line means nothing to analyze; a pair
of `buildhash now` lines is reported verbatim; otherwise both lines are
parsed as install-signature events and handed to `analyzeInstallSigDiff`. -/
def analyze (pkg : String) (rlog ilog : String)
    (rdeplog ideplog : Option String) : Except String Diagnosis :=
  match findDiffLine rlog ilog with
  | (none, _) => .ok .noDivergence
  | (some _, none) => .error "AssertionError: assert rhs is not None"
  | (some lhs, some rhs) =>
      if strHasPfx lhs "buildhash now" && strHasPfx rhs "buildhash now" then
        .ok (.settingsOrContentDirect lhs rhs)
      else do
        let refInstallSig ← getInstallSig lhs
        let insInstallSig ← getInstallSig rhs
        analyzeInstallSigDiff pkg refInstallSig insInstallSig rdeplog ideplog

/-! ### Claim C9: the line-divergence search -/

theorem findDiffAux_eq_none (a b : List String)
    (h : ∀ j, j < min a.length b.length → a.getD j "" = b.getD j "") :
    findDiffAux a b = (none, none) := by
  induction a generalizing b with
  | nil => cases b <;> simp [findDiffAux]
  | cons x as ih =>
      cases b with
      | nil => simp [findDiffAux]
      | cons y bs =>
          have h0 := h 0 (by simp [Nat.lt_min])
          simp only [List.getD_cons_zero] at h0
          rw [findDiffAux, if_neg (by simp [h0])]
          apply ih
          intro j hj
          have hj' : j + 1 < min (x :: as).length (y :: bs).length := by
            simp only [List.length_cons, Nat.lt_min] at hj ⊢
            omega
          have := h (j + 1) hj'
          simpa using this

theorem findDiffAux_at (k : Nat) :
    ∀ (a b : List String), k < min a.length b.length →
      (∀ j, j < k → a.getD j "" = b.getD j "") →
      a.getD k "" ≠ b.getD k "" →
      findDiffAux a b = (some (a.getD k ""), some (b.getD k "")) := by
  induction k with
  | zero =>
      intro a b hk _ hne
      cases a with
      | nil => simp at hk
      | cons x as =>
          cases b with
          | nil => simp at hk
          | cons y bs =>
              simp only [List.getD_cons_zero] at hne ⊢
              rw [findDiffAux, if_pos hne]
  | succ k ih =>
      intro a b hk hpre hne
      cases a with
      | nil => simp at hk
      | cons x as =>
          cases b with
          | nil => simp at hk
          | cons y bs =>
              have h0 := hpre 0 (Nat.succ_pos k)
              simp only [List.getD_cons_zero] at h0
              simp only [List.getD_cons_succ] at hne ⊢
              rw [findDiffAux, if_neg (by simp [h0])]
              apply ih
              · simp only [List.length_cons, Nat.lt_min] at hk ⊢
                omega
              · intro j hj
                have := hpre (j + 1) (by omega)
                simpa using this
              · exact hne

/-- Claim C9: the line-divergence search returns the `( None, None )` pair for two
texts whose line sequences agree over the shorter text's full length, and
for texts agreeing on lines `0..k-1` and differing at line `k` inside the
shared prefix it returns exactly the pair of lines at index `k`. -/
theorem findDiffLine_correct (l1 l2 : String) :
    ((∀ j, j < min (splitlines l1).length (splitlines l2).length →
        (splitlines l1).getD j "" = (splitlines l2).getD j "") →
      findDiffLine l1 l2 = (none, none)) ∧
    (∀ k, k < min (splitlines l1).length (splitlines l2).length →
      (∀ j, j < k → (splitlines l1).getD j "" = (splitlines l2).getD j "") →
      (splitlines l1).getD k "" ≠ (splitlines l2).getD k "" →
      findDiffLine l1 l2 =
        (some ((splitlines l1).getD k ""), some ((splitlines l2).getD k ""))) := by
  constructor
  · intro h
    exact findDiffAux_eq_none _ _ h
  · intro k hk hpre hne
    exact findDiffAux_at k _ _ hk hpre hne

/-- Witness for C9 at concrete inputs: identical-over-shared-prefix texts
give no divergence; texts differing first at line 1 give that line pair. -/
theorem findDiffLine_correct_witness :
    findDiffLine "a\nb" "a\nb\nc" = (none, none) ∧
    findDiffLine "a\nx" "a\ny" = (some "x", some "y") := by
  constructor
  · exact (findDiffLine_correct "a\nb" "a\nb\nc").1 (by decide)
  · exact (findDiffLine_correct "a\nx" "a\ny").2 1 (by decide) (by decide)
      (by decide)

/-! ### Claim C8: cache round trip -/

/-- Claim C8: storing a populated snapshot and loading with the same descriptor
and limit returns it unchanged in all fields; loading a key with no entry
returns the empty snapshot with `populated = False`. -/
theorem cache_round_trip (c : Cache) (s : HashInfo) (limit : Option Nat)
    (_hpop : s.populated = true) :
    LoadHashInfo (cacheStore c s limit) s.bi limit = .ok s ∧
    (∀ bi : AbuildInfo, cacheLookup c (pickleKey bi limit) = none →
      LoadHashInfo c bi limit =
        .ok { bi := bi, hashLogs := [], pkgDepOrder := [], buildhash := [],
              populated := false }) := by
  constructor
  · unfold LoadHashInfo cacheStore cacheLookup
    rw [alFind_insert]
    simp
  · intro bi h
    unfold LoadHashInfo
    rw [h]
    rfl

/-- Concrete example descriptors and snapshots used by the witnesses. -/
def exBiRef : AbuildInfo :=
  { start := "20240101", submit := "20240102", publish := "20240103",
    buildId := "100", project := "proj", platform := "plat", bs := "hostR" }

def exBiIns : AbuildInfo :=
  { start := "20240201", submit := "20240202", publish := "20240203",
    buildId := "200", project := "proj", platform := "plat", bs := "hostI" }

def exSnapStored : HashInfo :=
  { bi := exBiRef, hashLogs := ["p"], pkgDepOrder := ["p"],
    buildhash := [("p", [("content", "c"), ("deps", "d"), ("final", "A")])],
    populated := true }

/-- Witness for C8 at a concrete populated snapshot and an empty cache. -/
theorem cache_round_trip_witness :
    LoadHashInfo (cacheStore [] exSnapStored (some 1)) exSnapStored.bi
        (some 1) = .ok exSnapStored ∧
    LoadHashInfo [] exBiIns (some 1) =
      .ok { bi := exBiIns, hashLogs := [], pkgDepOrder := [], buildhash := [],
            populated := false } :=
  ⟨(cache_round_trip [] exSnapStored (some 1) rfl).1,
   (cache_round_trip [] exSnapStored (some 1) rfl).2 exBiIns rfl⟩

/-! ### Claim C4 (corrected): the token-extraction pattern is `\S*` -/

/-- Claim C4 as amended: the token stored for a captured marker line is group 1 of
`buildhash now (\S*)` — the maximal non-whitespace run after the literal,
possibly empty and stored as such — and a captured line that fails this
pattern (does not begin with `buildhash now `) is fatal for the `content`
and `final` slots rather than being stored. -/
theorem token_extraction_follows_pattern (pkg htype out tok : String)
    (d : Outer) :
    (matchBuildhash out = some tok →
      populateHashType pkg htype (some out) d = .ok (bhSet d pkg htype tok)) ∧
    (matchBuildhash out = none →
      populateHashType pkg "content" (some out) d =
          .error "AssertionError: assert mObj" ∧
      populateHashType pkg "final" (some out) d =
          .error "AssertionError: assert mObj") := by
  constructor
  · intro h
    simp [populateHashType, h]
  · intro h
    constructor <;> simp [populateHashType, h]

/-- Witness for C4 at a concrete matched line and a concrete failing line. -/
theorem token_extraction_follows_pattern_witness :
    populateHashType "p" "final" (some "buildhash now abc") [] =
      .ok (bhSet [] "p" "final" "abc") ∧
    populateHashType "p" "content" (some "no marker here") [] =
      .error "AssertionError: assert mObj" :=
  ⟨(token_extraction_follows_pattern "p" "final" "buildhash now abc" "abc"
      []).1 rfl,
   ((token_extraction_follows_pattern "p" "content" "no marker here" ""
      []).2 rfl).1⟩

/-- Counterexample to claim C4: the source compiles `buildhash now (\S*)` — star, not
plus — so the line `buildhash now ` **matches** with an empty token and the
empty string is stored in the record, where the claim requires a fatal
ParseError for an empty token. -/
theorem empty_token_is_stored :
    matchBuildhash "buildhash now " = some "" ∧
    populateHashType "p" "final" (some "buildhash now ") [] =
      .ok [("p", [("final", "")])] := ⟨rfl, rfl⟩

/-! ### Claim C2 (code bug): the deps sub-log extraction is off by one -/

/-- Claim C2 refuted on the code: evaluating `getDepsSubLog` at concrete logs containing the
synthesized marker.  With the marker followed by exactly one
`depsContentSig now` line the extracted block is empty (the scan starts two
lines after the marker and the slice excludes the last matching index), and
with a non-matching line right after the marker followed by a matching one
the block is exactly that unchecked non-matching line — both contradicting
the contiguous-run specification. -/
theorem sublog_extraction_off_by_one :
    getDepsContentSigPattern "pkgA:1.0-2" "Foo" =
      .ok "CALCULATING DEPSCONTENTSIG FOR pkgA-1.0 in the context of PACKAGE Foo" ∧
    getDepsSubLog
      (some ("CALCULATING DEPSCONTENTSIG FOR pkgA-1.0 in the context of PACKAGE Foo"
        ++ "\ndepsContentSig now X"))
      "CALCULATING DEPSCONTENTSIG FOR pkgA-1.0 in the context of PACKAGE Foo" =
      .ok "" ∧
    getDepsSubLog
      (some ("CALCULATING DEPSCONTENTSIG FOR pkgA-1.0 in the context of PACKAGE Foo"
        ++ "\nJUNK\ndepsContentSig now X\nend"))
      "CALCULATING DEPSCONTENTSIG FOR pkgA-1.0 in the context of PACKAGE Foo" =
      .ok "JUNK" := ⟨rfl, rfl, rfl⟩

/-! ### Claim C1 (code bug): the SettingsChanged branch raises -/

/-- Reference snapshot whose only package differs from the inspect build in
the final hash alone (content and deps hashes equal). -/
def refSnapSettings : HashInfo :=
  { bi := exBiRef, hashLogs := ["p"], pkgDepOrder := ["p"],
    buildhash := [("p", [("content", "c"), ("deps", "d"), ("final", "A")])],
    populated := true }

/-- Inspect snapshot for the settings-only divergence. -/
def insSnapSettings : HashInfo :=
  { bi := exBiIns, hashLogs := ["p"], pkgDepOrder := ["p"],
    buildhash := [("p", [("content", "c"), ("deps", "d"), ("final", "B")])],
    populated := true }

/-- Claim C1 refuted on the code: on a package whose final hashes differ while content and deps hashes
are both equal, the summary loop reaches
`displayList[ pkg ] = 'final'` — indexing a Python list with a `str` key —
and the run raises `TypeError` instead of completing with a
`( pkg, SettingsChanged )` entry. -/
theorem settings_branch_raises :
    (diffSummary refSnapSettings insSnapSettings none).2 =
      .error "TypeError: list indices must be integers or slices, not str" :=
  rfl

/-! ### Claim C5: deps-marker failure is tolerated, content/final are not -/

/-- Bool test for the error case of a fallible computation. -/
def isErrE {α : Type} : Except String α → Bool
  | .error _ => true
  | .ok _ => false

/-- Claim C5: for a package with a hash log, a nonzero exit of the `deps` grep
stores the sentinel `NA` in the deps slot and the extraction succeeds, while
the same failure on the `content` or the `final` lookup makes the whole
per-package extraction fail. -/
theorem deps_failure_tolerated (hl : List String) (pkg cOut fOut tc tf : String)
    (dg : Option String) (d : Outer)
    (hmem : hl.contains pkg = true)
    (hc : matchBuildhash cOut = some tc)
    (hf : matchBuildhash fOut = some tf) :
    (populateBuildHashForPkg hl pkg
        { contentGrep := some cOut, depsGrep := none, finalGrep := some fOut }
        d =
      .ok (bhSet (bhSet (bhSet d pkg "content" tc) pkg "deps" "NA")
            pkg "final" tf)) ∧
    outerSlot
        (bhSet (bhSet (bhSet d pkg "content" tc) pkg "deps" "NA")
          pkg "final" tf) pkg "deps" = some "NA" ∧
    isErrE (populateBuildHashForPkg hl pkg
        { contentGrep := none, depsGrep := dg, finalGrep := some fOut } d) =
      true ∧
    isErrE (populateBuildHashForPkg hl pkg
        { contentGrep := some cOut, depsGrep := none, finalGrep := none } d) =
      true := by
  have hmem' : pkg ∈ hl := by simpa using hmem
  refine ⟨?_, ?_, ?_, ?_⟩
  · simp [populateBuildHashForPkg, hmem', populateHashType, hc, hf,
      Bind.bind, Except.bind]
  · rw [outerSlot_bhSet_other_key _ _ _ _ _ (by decide)]
    exact outerSlot_bhSet_self _ _ _ _
  · simp [populateBuildHashForPkg, hmem', populateHashType, isErrE,
      Bind.bind, Except.bind]
  · simp [populateBuildHashForPkg, hmem', populateHashType, hc, isErrE,
      Bind.bind, Except.bind]

/-- Witness for C5 at a concrete package, record and grep results. -/
theorem deps_failure_tolerated_witness :
    populateBuildHashForPkg ["p"] "p"
        { contentGrep := some "buildhash now c1 due to contents of src",
          depsGrep := none, finalGrep := some "buildhash now f1" } [] =
      .ok (bhSet (bhSet (bhSet [] "p" "content" "c1") "p" "deps" "NA")
            "p" "final" "f1") ∧
    outerSlot (bhSet (bhSet (bhSet [] "p" "content" "c1") "p" "deps" "NA")
          "p" "final" "f1") "p" "deps" = some "NA" ∧
    isErrE (populateBuildHashForPkg ["p"] "p"
        { contentGrep := none, depsGrep := none,
          finalGrep := some "buildhash now f1" } []) = true ∧
    isErrE (populateBuildHashForPkg ["p"] "p"
        { contentGrep := some "buildhash now c1 due to contents of src",
          depsGrep := none, finalGrep := none } []) = true :=
  deps_failure_tolerated ["p"] "p" "buildhash now c1 due to contents of src"
    "buildhash now f1" "c1" "f1" none [] rfl rfl rfl

/-! ### Claim C6: direct buildhash divergence and rpm identity change -/

/-- Claim C6: when both diverging main-log lines begin with `buildhash now`, the
diagnosis is `SettingsOrContentDirect` carrying the two raw lines; otherwise
both lines are parsed as install-signature events, and when the two decoded
payloads' first-line identity tokens differ the diagnosis is
`PackageAddedOrRemoved` carrying both tokens. -/
theorem analyze_direct_and_added_removed (pkg rlog ilog : String)
    (rdl idl : Option String) (lhs rhs : String)
    (hdiff : findDiffLine rlog ilog = (some lhs, some rhs)) :
    ((strHasPfx lhs "buildhash now" && strHasPfx rhs "buildhash now") = true →
      analyze pkg rlog ilog rdl idl =
        .ok (.settingsOrContentDirect lhs rhs)) ∧
    ((strHasPfx lhs "buildhash now" && strHasPfx rhs "buildhash now") = false →
      ∀ s1 s2 r1 r2 : String,
        getInstallSig lhs = .ok s1 → getInstallSig rhs = .ok s2 →
        getRpmFromInstallSig s1 = .ok r1 → getRpmFromInstallSig s2 = .ok r2 →
        r1 ≠ r2 →
        analyze pkg rlog ilog rdl idl =
          .ok (.packageAddedOrRemoved r1 r2)) := by
  constructor
  · intro h
    simp [analyze, hdiff, h]
  · intro h s1 s2 r1 r2 h1 h2 h3 h4 h5
    simp [analyze, hdiff, h, h1, h2, analyzeInstallSigDiff, h3, h4, h5,
      Bind.bind, Except.bind]

/-- Witness for C6 at concrete log pairs: a `buildhash now` divergence and a
`depSig` divergence with differing rpm identity tokens. -/
theorem analyze_direct_and_added_removed_witness :
    analyze "Pkg" "x\nbuildhash now AAA" "x\nbuildhash now BBB" none none =
      .ok (.settingsOrContentDirect "buildhash now AAA" "buildhash now BBB") ∧
    analyze "Pkg" "x\ndepSig now h1 due to full: len=13=b'pkgA-1.0\\ndata'"
        "x\ndepSig now h2 due to full: len=13=b'pkgB-2.0\\ndata'" none none =
      .ok (.packageAddedOrRemoved "pkgA-1.0" "pkgB-2.0") := by
  constructor
  · exact (analyze_direct_and_added_removed "Pkg" "x\nbuildhash now AAA"
      "x\nbuildhash now BBB" none none "buildhash now AAA" "buildhash now BBB"
      rfl).1 rfl
  · have hs1 : getInstallSig "depSig now h1 due to full: len=13=b'pkgA-1.0\\ndata'" =
        .ok "pkgA-1.0\ndata" := rfl
    have hs2 : getInstallSig "depSig now h2 due to full: len=13=b'pkgB-2.0\\ndata'" =
        .ok "pkgB-2.0\ndata" := rfl
    exact (analyze_direct_and_added_removed "Pkg"
      "x\ndepSig now h1 due to full: len=13=b'pkgA-1.0\\ndata'"
      "x\ndepSig now h2 due to full: len=13=b'pkgB-2.0\\ndata'" none none
      "depSig now h1 due to full: len=13=b'pkgA-1.0\\ndata'"
      "depSig now h2 due to full: len=13=b'pkgB-2.0\\ndata'"
      rfl).2 rfl "pkgA-1.0\ndata" "pkgB-2.0\ndata" "pkgA-1.0" "pkgB-2.0"
      hs1 hs2 rfl rfl (by decide)

/-! ### Claim C7: populated snapshots only record dependency-ordered keys -/

theorem populateHashType_mem (pkg htype : String) (g : Option String)
    (d d' : Outer) (h : populateHashType pkg htype g d = .ok d')
    (q : String) (hq : outerMem d' q = true) :
    outerMem d q = true ∨ q = pkg := by
  cases g with
  | none =>
      simp only [populateHashType] at h
      by_cases hd : htype = "deps"
      · rw [if_neg (by simp [hd])] at h
        have hd' : bhSet d pkg htype "NA" = d' := by injection h
        rw [← hd', outerMem_bhSet] at hq
        simpa using hq
      · rw [if_pos (by simp [hd])] at h
        cases h
  | some out =>
      simp only [populateHashType] at h
      cases hm : matchBuildhash out with
      | none => simp only [hm] at h; exact Except.noConfusion h
      | some tok =>
          simp only [hm] at h
          have hd' : bhSet d pkg htype tok = d' := by injection h
          rw [← hd', outerMem_bhSet] at hq
          simpa using hq

theorem populateBuildHashForPkg_mem (hl : List String) (pkg : String)
    (g : PkgLogGreps) (d d' : Outer)
    (h : populateBuildHashForPkg hl pkg g d = .ok d')
    (q : String) (hq : outerMem d' q = true) :
    outerMem d q = true ∨ q = pkg := by
  by_cases hc : hl.contains pkg = true
  · simp only [populateBuildHashForPkg, hc, if_true, Bind.bind,
      Except.bind] at h
    cases h1 : populateHashType pkg "content" g.contentGrep d with
    | error e => simp only [h1] at h; exact Except.noConfusion h
    | ok d1 =>
        simp only [h1] at h
        cases h2 : populateHashType pkg "deps" g.depsGrep d1 with
        | error e => simp only [h2] at h; exact Except.noConfusion h
        | ok d2 =>
            simp only [h2] at h
            cases h3 : populateHashType pkg "final" g.finalGrep d2 with
            | error e => simp only [h3] at h; exact Except.noConfusion h
            | ok d3 =>
                simp only [h3, Except.ok.injEq] at h
                subst h
                rcases populateHashType_mem _ _ _ _ _ h3 q hq with h' | h'
                · rcases populateHashType_mem _ _ _ _ _ h2 q h' with h'' | h''
                  · rcases populateHashType_mem _ _ _ _ _ h1 q h''
                      with h3' | h3'
                    · exact Or.inl h3'
                    · exact Or.inr h3'
                  · exact Or.inr h''
                · exact Or.inr h'
  · simp only [populateBuildHashForPkg, if_neg hc, Except.ok.injEq] at h
    subst h
    exact Or.inl hq

theorem populateList_mem (hl : List String) (env : RemoteEnv) :
    ∀ (l : List String) (d d' : Outer),
      populateList hl env l d = .ok d' →
      ∀ q, outerMem d' q = true → outerMem d q = true ∨ q ∈ l := by
  intro l
  induction l with
  | nil =>
      intro d d' h q hq
      have hd : d = d' := by
        unfold populateList at h
        injection h
      subst hd
      exact Or.inl hq
  | cons pkg rest ih =>
      intro d d' h q hq
      simp only [populateList, Bind.bind, Except.bind] at h
      cases h1 : populateBuildHashForPkg hl pkg (env.pkgGreps pkg) d with
      | error e => simp only [h1] at h; exact Except.noConfusion h
      | ok d1 =>
          simp only [h1] at h
          rcases ih d1 d' h q hq with h' | h'
          · rcases populateBuildHashForPkg_mem _ _ _ _ _ h1 q h' with h'' | h''
            · exact Or.inl h''
            · exact Or.inr (by simp [h''])
          · exact Or.inr (List.mem_cons_of_mem _ h')

/-- Claim C7: a snapshot produced (and marked populated) by `populateAll` from the
empty snapshot has every key of its hash mapping inside its
dependency-order list: hash records are only ever created for packages drawn
from a prefix of that list. -/
theorem populated_keys_in_dep_order (bi : AbuildInfo) (env : RemoteEnv)
    (pkgLimit : Option Nat) (cache : Cache) (hi : HashInfo) (c' : Cache)
    (h : populateAll (HashInfo.init bi) env pkgLimit cache = .ok (hi, c')) :
    hi.populated = true ∧
    ∀ pkg, outerMem hi.buildhash pkg = true → pkg ∈ hi.pkgDepOrder := by
  simp only [populateAll, Bind.bind, Except.bind] at h
  cases h1 : populateHashLogsSet (HashInfo.init bi) env with
  | error e => simp only [h1] at h; exact Except.noConfusion h
  | ok hi1 =>
      simp only [h1] at h
      cases h2 : populatePkgBuildOrder hi1 env with
      | error e => simp only [h2] at h; exact Except.noConfusion h
      | ok hi2 =>
          simp only [h2] at h
          cases h3 : populateBuildhashes hi2 env pkgLimit with
          | error e => simp only [h3] at h; exact Except.noConfusion h
          | ok hi3 =>
              simp only [h3, Except.ok.injEq, Prod.mk.injEq] at h
              obtain ⟨hhi, _⟩ := h
              subst hhi
              refine ⟨rfl, ?_⟩
              intro pkg hq
              simp only [populateBuildhashes, Bind.bind, Except.bind] at h3
              cases h4 : populateList hi2.hashLogs env
                  (hi2.pkgDepOrder.take (pkgLimit.getD hi2.pkgDepOrder.length))
                  hi2.buildhash with
              | error e => simp only [h4] at h3; exact Except.noConfusion h3
              | ok bh =>
                  simp only [h4, Except.ok.injEq] at h3
                  have hbh : hi3.buildhash = bh := by rw [← h3]
                  have hord : hi3.pkgDepOrder = hi2.pkgDepOrder := by
                    rw [← h3]
                  have hempty : hi2.buildhash = [] := by
                    have h2b : hi2.buildhash = hi1.buildhash := by
                      simp only [populatePkgBuildOrder] at h2
                      cases ho : env.orderGrep with
                      | none => simp only [ho] at h2; exact Except.noConfusion h2
                      | some out =>
                          simp only [ho] at h2
                          cases ha : afterFirstLit out "'a4 make' packages:"
                            with
                          | none =>
                              simp only [ha] at h2
                              exact Except.noConfusion h2
                          | some rest =>
                              simp only [ha, Except.ok.injEq] at h2
                              rw [← h2]
                    rw [h2b]
                    simp only [populateHashLogsSet] at h1
                    cases hl : env.lsOutput with
                    | none => simp only [hl] at h1; exact Except.noConfusion h1
                    | some ls =>
                        simp only [hl, Except.ok.injEq] at h1
                        rw [← h1]
                        rfl
                  simp only at hq
                  rw [hbh] at hq
                  rcases populateList_mem hi2.hashLogs env _ _ _ h4 pkg hq
                    with h' | h'
                  · rw [hempty] at h'
                    simp [outerMem, alFind] at h'
                  · simp only [hord]
                    exact List.take_subset _ _ h'

/-- Remote state of a small concrete build used by the C7 witness. -/
def exEnv : RemoteEnv :=
  { lsOutput := some "pkgA.log\npkgA.deps.log\npkgB.log",
    orderGrep := some "'a4 make' packages: pkgA pkgB(!) pkgC",
    pkgGreps := fun _ =>
      { contentGrep := some "buildhash now c1 due to contents of src",
        depsGrep := some "buildhash now d1 due to depSig",
        finalGrep := some "buildhash now f1" } }

/-- The snapshot `populateAll` produces from `exEnv`. -/
def exSnapPopulated : HashInfo :=
  { bi := exBiRef,
    hashLogs := ["pkgA", "pkgA", "pkgB"],
    pkgDepOrder := ["pkgA", "pkgB", "pkgC"],
    buildhash :=
      [("pkgA", [("content", "c1"), ("deps", "d1"), ("final", "f1")]),
       ("pkgB", [("content", "c1"), ("deps", "d1"), ("final", "f1")])],
    populated := true }

/-- Witness for C7 at the concrete environment `exEnv`: the produced
snapshot is populated and its recorded key `pkgA` is dependency-ordered. -/
theorem populated_keys_in_dep_order_witness :
    exSnapPopulated.populated = true ∧ "pkgA" ∈ exSnapPopulated.pkgDepOrder :=
  ⟨(populated_keys_in_dep_order exBiRef exEnv none []
      exSnapPopulated (cacheStore [] exSnapPopulated none) rfl).1,
   (populated_keys_in_dep_order exBiRef exEnv none []
      exSnapPopulated (cacheStore [] exSnapPopulated none) rfl).2 "pkgA" rfl⟩

/-! ### Claim C10: summarization is read-only on both snapshots -/

/-- Every record of the mapping carries all three hash slots — true of every
populated snapshot, since `populateBuildHashForPkg` fills content, deps and
final before moving on. -/
def recordsComplete (d : Outer) : Prop :=
  ∀ p ∈ d, (alFind p.2 "content").isSome = true ∧
           (alFind p.2 "deps").isSome = true ∧
           (alFind p.2 "final").isSome = true

instance (d : Outer) : Decidable (recordsComplete d) := by
  unfold recordsComplete; infer_instance

theorem alFind_mem {κ α : Type} [DecidableEq κ] (d : List (κ × α)) (k : κ)
    (v : α) (h : alFind d k = some v) : (k, v) ∈ d := by
  induction d with
  | nil => simp [alFind] at h
  | cons p t ih =>
      unfold alFind at h
      by_cases hp : p.1 = k
      · rw [if_pos hp] at h
        injection h with h
        have hpv : p = (k, v) := by
          obtain ⟨a, b⟩ := p
          simp_all
        rw [← hpv]
        exact List.mem_cons_self _ _
      · rw [if_neg hp] at h
        exact List.mem_cons_of_mem _ (ih h)

theorem bhRead_complete_frame (d : Outer) (hc : recordsComplete d)
    (pkg htype : String) (hm : outerMem d pkg = true)
    (hs : htype = "content" ∨ htype = "deps" ∨ htype = "final") :
    (bhRead d pkg htype).2 = d := by
  unfold outerMem at hm
  obtain ⟨inner, hinner⟩ := Option.isSome_iff_exists.mp hm
  have hmem := alFind_mem _ _ _ hinner
  have hcomp := hc (pkg, inner) hmem
  have hslot : (alFind inner htype).isSome = true := by
    rcases hs with h | h | h <;> rw [h]
    · exact hcomp.1
    · exact hcomp.2.1
    · exact hcomp.2.2
  obtain ⟨v, hv⟩ := Option.isSome_iff_exists.mp hslot
  have : outerSlot d pkg htype = some v := by
    unfold outerSlot
    rw [hinner, Option.some_bind, hv]
  rw [bhRead_hit d pkg htype v this]

theorem summaryStep_complete_frame (st : LoopSt) (pkg : String)
    (hr : recordsComplete st.rbh) (hic : recordsComplete st.ibh) :
    (summaryStep st pkg).1.ibh = st.ibh ∧
    (summaryStep st pkg).1.rbh = st.rbh := by
  unfold summaryStep
  by_cases hmi : outerMem st.ibh pkg
  · by_cases hmr : outerMem st.rbh pkg
    · have ei1 : (bhRead st.ibh pkg "final").2 = st.ibh :=
        bhRead_complete_frame _ hic _ _ hmi (by simp)
      have er1 : (bhRead st.rbh pkg "final").2 = st.rbh :=
        bhRead_complete_frame _ hr _ _ hmr (by simp)
      have ei2 : (bhRead st.ibh pkg "content").2 = st.ibh :=
        bhRead_complete_frame _ hic _ _ hmi (by simp)
      have er2 : (bhRead st.rbh pkg "content").2 = st.rbh :=
        bhRead_complete_frame _ hr _ _ hmr (by simp)
      have ei3 : (bhRead st.ibh pkg "deps").2 = st.ibh :=
        bhRead_complete_frame _ hic _ _ hmi (by simp)
      have er3 : (bhRead st.rbh pkg "deps").2 = st.rbh :=
        bhRead_complete_frame _ hr _ _ hmr (by simp)
      simp only [hmi, hmr, if_true, ei1, er1, ei2, er2, ei3, er3]
      split_ifs <;> simp
    · simp [hmi, hmr]
  · simp [hmi]

theorem summaryLoop_complete_frame :
    ∀ (l : List String) (st : LoopSt),
      recordsComplete st.rbh → recordsComplete st.ibh →
      (summaryLoop l st).1.ibh = st.ibh ∧
      (summaryLoop l st).1.rbh = st.rbh := by
  intro l
  induction l with
  | nil => intro st _ _; exact ⟨rfl, rfl⟩
  | cons pkg rest ih =>
      intro st hr hic
      have hstep := summaryStep_complete_frame st pkg hr hic
      unfold summaryLoop
      by_cases hcr : (summaryStep st pkg).2 = true
      · simp only [hcr, if_true]
        exact hstep
      · simp only [Bool.not_eq_true] at hcr
        simp only [hcr, Bool.false_eq_true, if_false]
        have hr' : recordsComplete (summaryStep st pkg).1.rbh := by
          rw [hstep.2]; exact hr
        have hi' : recordsComplete (summaryStep st pkg).1.ibh := by
          rw [hstep.1]; exact hic
        have hrec := ih (summaryStep st pkg).1 hr' hi'
        exact ⟨hrec.1.trans hstep.1, hrec.2.trans hstep.2⟩

/-- Claim C10: because membership in the outer mapping is tested before any
indexing, and every record of each snapshot carries all three slots, a
summarize run — whether it completes or raises in the SettingsChanged
branch — leaves both snapshots' hash mappings exactly as they were, despite
the auto-inserting defaultdict reads. -/
theorem summary_is_read_only (rhi ihi : HashInfo) (pkgLimit : Option Nat)
    (hr : recordsComplete rhi.buildhash)
    (hic : recordsComplete ihi.buildhash) :
    (diffSummary rhi ihi pkgLimit).1.1.buildhash = rhi.buildhash ∧
    (diffSummary rhi ihi pkgLimit).1.2.buildhash = ihi.buildhash := by
  unfold diffSummary
  have hloop := summaryLoop_complete_frame
    (ihi.pkgDepOrder.take (effLimit ihi pkgLimit))
    { rbh := rhi.buildhash, ibh := ihi.buildhash,
      accounted := 0, matchCount := 0, displayList := [] } hr hic
  by_cases hb : (summaryLoop (ihi.pkgDepOrder.take (effLimit ihi pkgLimit))
      { rbh := rhi.buildhash, ibh := ihi.buildhash,
        accounted := 0, matchCount := 0, displayList := [] }).2 = true <;>
    simp [hb, hloop.1, hloop.2]

/-- Witness for C10 at the concrete snapshots of the settings-divergence
example (a run that raises, and still mutates nothing). -/
theorem summary_is_read_only_witness :
    (diffSummary refSnapSettings insSnapSettings none).1.1.buildhash =
      refSnapSettings.buildhash ∧
    (diffSummary refSnapSettings insSnapSettings none).1.2.buildhash =
      insSnapSettings.buildhash :=
  summary_is_read_only refSnapSettings insSnapSettings none (by decide)
    (by decide)

/-! ### Claim C3 (corrected): the summary count identities -/

theorem summaryStep_mem_outer (st : LoopSt) (pkg q : String) :
    outerMem (summaryStep st pkg).1.ibh q = outerMem st.ibh q ∧
    outerMem (summaryStep st pkg).1.rbh q = outerMem st.rbh q := by
  unfold summaryStep
  by_cases hmi : outerMem st.ibh pkg
  · by_cases hmr : outerMem st.rbh pkg
    · have mi1 : ∀ x, outerMem (bhRead st.ibh pkg "final").2 x =
          outerMem st.ibh x := fun x => outerMem_bhRead _ _ _ _ hmi
      have mr1 : ∀ x, outerMem (bhRead st.rbh pkg "final").2 x =
          outerMem st.rbh x := fun x => outerMem_bhRead _ _ _ _ hmr
      have hmi1 : outerMem (bhRead st.ibh pkg "final").2 pkg = true := by
        rw [mi1 pkg]; exact hmi
      have hmr1 : outerMem (bhRead st.rbh pkg "final").2 pkg = true := by
        rw [mr1 pkg]; exact hmr
      have mi2 : ∀ x,
          outerMem (bhRead (bhRead st.ibh pkg "final").2 pkg "content").2 x =
            outerMem (bhRead st.ibh pkg "final").2 x :=
        fun x => outerMem_bhRead _ _ _ _ hmi1
      have mr2 : ∀ x,
          outerMem (bhRead (bhRead st.rbh pkg "final").2 pkg "content").2 x =
            outerMem (bhRead st.rbh pkg "final").2 x :=
        fun x => outerMem_bhRead _ _ _ _ hmr1
      have hmi2 : outerMem
          (bhRead (bhRead st.ibh pkg "final").2 pkg "content").2 pkg = true := by
        rw [mi2 pkg]; exact hmi1
      have hmr2 : outerMem
          (bhRead (bhRead st.rbh pkg "final").2 pkg "content").2 pkg = true := by
        rw [mr2 pkg]; exact hmr1
      have mi3 : ∀ x,
          outerMem (bhRead
            (bhRead (bhRead st.ibh pkg "final").2 pkg "content").2
            pkg "deps").2 x =
          outerMem (bhRead (bhRead st.ibh pkg "final").2 pkg "content").2 x :=
        fun x => outerMem_bhRead _ _ _ _ hmi2
      have mr3 : ∀ x,
          outerMem (bhRead
            (bhRead (bhRead st.rbh pkg "final").2 pkg "content").2
            pkg "deps").2 x =
          outerMem (bhRead (bhRead st.rbh pkg "final").2 pkg "content").2 x :=
        fun x => outerMem_bhRead _ _ _ _ hmr2
      simp only [hmi, hmr, if_true]
      split_ifs <;>
        constructor <;>
          simp only [mi1, mr1, mi2, mr2, mi3, mr3]
    · simp [hmi, hmr]
  · simp [hmi]

theorem summaryStep_counts (st : LoopSt) (pkg : String) :
    if (outerMem st.ibh pkg && outerMem st.rbh pkg) = true then
      (summaryStep st pkg).1.accounted = st.accounted + 1 ∧
      ((summaryStep st pkg).2 = false →
        (summaryStep st pkg).1.matchCount +
            (summaryStep st pkg).1.displayList.length =
          st.matchCount + st.displayList.length + 1)
    else (summaryStep st pkg).1 = st ∧ (summaryStep st pkg).2 = false := by
  unfold summaryStep
  by_cases hmi : outerMem st.ibh pkg
  · by_cases hmr : outerMem st.rbh pkg
    · simp only [hmi, hmr, Bool.and_self, if_true]
      split_ifs <;>
        simp [List.length_append] <;> omega
    · simp [hmi, hmr]
  · simp [hmi]

theorem countP_add_countP_not {α : Type} (p : α → Bool) (l : List α) :
    l.countP p + l.countP (fun a => !(p a)) = l.length := by
  induction l with
  | nil => simp
  | cons a t ih =>
      rw [List.countP_cons, List.countP_cons]
      cases hp : p a <;> simp [hp] <;> omega

theorem summaryLoop_spec :
    ∀ (l : List String) (st st' : LoopSt),
      summaryLoop l st = (st', false) →
      (∀ q, outerMem st'.ibh q = outerMem st.ibh q) ∧
      (∀ q, outerMem st'.rbh q = outerMem st.rbh q) ∧
      st'.accounted = st.accounted +
        l.countP (fun p => outerMem st.ibh p && outerMem st.rbh p) ∧
      st'.matchCount + st'.displayList.length =
        st.matchCount + st.displayList.length +
          l.countP (fun p => outerMem st.ibh p && outerMem st.rbh p) := by
  intro l
  induction l with
  | nil =>
      intro st st' h
      simp only [summaryLoop, Prod.mk.injEq] at h
      obtain ⟨h1, _⟩ := h
      subst h1
      simp
  | cons pkg rest ih =>
      intro st st' h
      simp only [summaryLoop] at h
      by_cases hcr : (summaryStep st pkg).2 = true
      · rw [if_pos hcr] at h
        have := congrArg Prod.snd h
        simp at this
      · rw [Bool.not_eq_true] at hcr
        rw [hcr] at h
        simp only [Bool.false_eq_true, if_false] at h
        obtain ⟨mi, mr, hacc, hsum⟩ := ih (summaryStep st pkg).1 st' h
        have hmem := summaryStep_mem_outer st pkg
        have hcnt := summaryStep_counts st pkg
        have hcp : rest.countP
              (fun p => outerMem (summaryStep st pkg).1.ibh p &&
                outerMem (summaryStep st pkg).1.rbh p) =
            rest.countP
              (fun p => outerMem st.ibh p && outerMem st.rbh p) := by
          apply List.countP_congr
          intro a _
          rw [(summaryStep_mem_outer st pkg a).1,
            (summaryStep_mem_outer st pkg a).2]
        refine ⟨?_, ?_, ?_, ?_⟩
        · intro q
          rw [mi q, (summaryStep_mem_outer st pkg q).1]
        · intro q
          rw [mr q, (summaryStep_mem_outer st pkg q).2]
        · rw [List.countP_cons]
          by_cases hb : (outerMem st.ibh pkg && outerMem st.rbh pkg) = true
          · rw [if_pos hb] at hcnt
            rw [hacc, hcp, hcnt.1]
            simp [hb]
            omega
          · rw [if_neg hb] at hcnt
            rw [hacc, hcp, hcnt.1]
            simp only [Bool.not_eq_true] at hb
            simp [hb]
        · rw [List.countP_cons]
          by_cases hb : (outerMem st.ibh pkg && outerMem st.rbh pkg) = true
          · rw [if_pos hb] at hcnt
            rw [hsum, hcp, hcnt.2 hcr]
            simp [hb]
            omega
          · rw [if_neg hb] at hcnt
            rw [hsum, hcp, hcnt.1]
            simp only [Bool.not_eq_true] at hb
            simp [hb]

/-- Claim C3 as amended: for every summarization run that completes, the
printed counts satisfy `accounted == matched + mismatched` — with any
iteration limit, including a supplied package limit larger than the inspect
build's dependency-order length; and whenever the effective iteration limit
is at most that length (always the case when no limit or a limit `≤ length`
is supplied), also `considered == accounted + skippedBecauseAbsentInOneSide`.
For a supplied limit larger than that length the run still completes, but
the printed considered count is the raw limit and the considered identity
fails (see the counterexample). -/
theorem summary_count_identities (rhi ihi : HashInfo) (pkgLimit : Option Nat)
    (res : HashInfo × HashInfo) (out : SummaryOut)
    (hrun : diffSummary rhi ihi pkgLimit = (res, .ok out)) :
    out.accounted = out.matched + out.mismatched ∧
    (effLimit ihi pkgLimit ≤ ihi.pkgDepOrder.length →
      out.considered =
        out.accounted + countSkipped rhi ihi (effLimit ihi pkgLimit)) := by
  unfold diffSummary at hrun
  dsimp only at hrun
  by_cases hb : (summaryLoop (ihi.pkgDepOrder.take (effLimit ihi pkgLimit))
      { rbh := rhi.buildhash, ibh := ihi.buildhash,
        accounted := 0, matchCount := 0, displayList := [] }).2 = true
  · rw [if_pos hb] at hrun
    have := congrArg Prod.snd hrun
    simp at this
  · rw [Bool.not_eq_true] at hb
    rw [hb] at hrun
    simp only [Bool.false_eq_true, if_false] at hrun
    have hout := congrArg Prod.snd hrun
    simp only [Except.ok.injEq] at hout
    have hloopeq : summaryLoop (ihi.pkgDepOrder.take (effLimit ihi pkgLimit))
        { rbh := rhi.buildhash, ibh := ihi.buildhash,
          accounted := 0, matchCount := 0, displayList := [] } =
        ((summaryLoop (ihi.pkgDepOrder.take (effLimit ihi pkgLimit))
          { rbh := rhi.buildhash, ibh := ihi.buildhash,
            accounted := 0, matchCount := 0, displayList := [] }).1, false) := by
      rw [← hb]
    obtain ⟨mi, mr, hacc, hsum⟩ := summaryLoop_spec _ _ _ hloopeq
    simp only [List.length_nil, Nat.zero_add, Nat.add_zero] at hacc hsum
    have hcons : out.considered = effLimit ihi pkgLimit := by
      rw [← hout]
    have haccf : out.accounted =
        (summaryLoop (ihi.pkgDepOrder.take (effLimit ihi pkgLimit))
          { rbh := rhi.buildhash, ibh := ihi.buildhash,
            accounted := 0, matchCount := 0, displayList := [] }).1.accounted := by
      rw [← hout]
    have hmat : out.matched =
        (summaryLoop (ihi.pkgDepOrder.take (effLimit ihi pkgLimit))
          { rbh := rhi.buildhash, ibh := ihi.buildhash,
            accounted := 0, matchCount := 0, displayList := [] }).1.accounted -
        (summaryLoop (ihi.pkgDepOrder.take (effLimit ihi pkgLimit))
          { rbh := rhi.buildhash, ibh := ihi.buildhash,
            accounted := 0, matchCount := 0,
            displayList := [] }).1.displayList.length := by
      rw [← hout]
    have hmis : out.mismatched =
        (summaryLoop (ihi.pkgDepOrder.take (effLimit ihi pkgLimit))
          { rbh := rhi.buildhash, ibh := ihi.buildhash,
            accounted := 0, matchCount := 0,
            displayList := [] }).1.displayList.length := by
      rw [← hout]
    have hpart := countP_add_countP_not
      (fun p => outerMem ihi.buildhash p && outerMem rhi.buildhash p)
      (ihi.pkgDepOrder.take (effLimit ihi pkgLimit))
    constructor
    · rw [haccf, hmat, hmis]
      omega
    · intro hlim
      have hlen : (ihi.pkgDepOrder.take (effLimit ihi pkgLimit)).length =
          effLimit ihi pkgLimit := by
        rw [List.length_take]
        exact Nat.min_eq_left hlim
      rw [hcons, haccf, hacc]
      unfold countSkipped
      omega

/-- A bare snapshot with an empty dependency-order list. -/
def refSnapBare : HashInfo := { bi := exBiRef, populated := true }

/-- A bare inspect snapshot with an empty dependency-order list. -/
def insSnapBare : HashInfo := { bi := exBiIns, populated := true }

/-- Counterexample to claim C3: with an empty inspect dependency-order list and a
supplied package limit of 5 the run completes and prints
`Total packages considered: 5` although nothing was iterated — `considered`
is the raw `iterLimit`, so `considered = accounted + skipped` fails for a
limit larger than the dependency-order length, refuting the claim's
final clause. -/
theorem considered_exceeds_prefix :
    (diffSummary refSnapBare insSnapBare (some 5)).2 =
      .ok { considered := 5, accounted := 0, matched := 0, mismatched := 0,
            displayList := [] } ∧
    ¬ (5 = 0 + countSkipped refSnapBare insSnapBare
          (effLimit insSnapBare (some 5))) := ⟨rfl, by decide⟩

/-- Reference snapshot for a completed mismatching run (content differs). -/
def refSnapContent : HashInfo :=
  { bi := exBiRef, hashLogs := ["p"], pkgDepOrder := ["p"],
    buildhash := [("p", [("content", "c1"), ("deps", "d"), ("final", "A")])],
    populated := true }

/-- Inspect snapshot for a completed mismatching run (content differs). -/
def insSnapContent : HashInfo :=
  { bi := exBiIns, hashLogs := ["p"], pkgDepOrder := ["p"],
    buildhash := [("p", [("content", "c2"), ("deps", "d"), ("final", "B")])],
    populated := true }

/-- Witness for C3 at a concrete completed run with one content mismatch. -/
theorem summary_count_identities_witness :
    (1 = 0 + 1) ∧
    (1 = 1 + countSkipped refSnapContent insSnapContent
        (effLimit insSnapContent none)) :=
  ⟨(summary_count_identities refSnapContent insSnapContent none
      (refSnapContent, insSnapContent)
      { considered := 1, accounted := 1, matched := 0, mismatched := 1,
        displayList := [("p", "package contents changed")] } rfl).1,
   (summary_count_identities refSnapContent insSnapContent none
      (refSnapContent, insSnapContent)
      { considered := 1, accounted := 1, matched := 0, mismatched := 1,
        displayList := [("p", "package contents changed")] } rfl).2
     (by decide)⟩

end Bhyze
